import Mathlib


/-!
Verification of the CRM agent core of this repository: the fact merger,
scoring and stage policy, phone normalization, dedup resolver, workflow
orchestrator (automation idempotency), the bounded sequence-numbered event
log of `server/index.js`, and the Evolution gateway endpoint-shape fallback
(`evolutionTryRequest`).

JavaScript values are embedded as follows: draft/signal objects become
finite maps `String → Option FactVal` (a fact is a string or a number;
machine numbers that reach these code paths are integers); JS truthiness of
a fact is `FactVal.truthy`; the network is an environment mapping a
candidate path to its outcome.
-/

/-- Length of a string in characters (JS `s.length` on these inputs). -/
def strLength (s : String) : Nat := s.data.length

/-- JS `s.slice(n)` / Lean `String.drop` over the character list. -/
def strDrop (s : String) (n : Nat) : String := String.mk (s.data.drop n)

/-- JS `s.slice(0, n)` / Lean `String.take` over the character list. -/
def strTake (s : String) (n : Nat) : String := String.mk (s.data.take n)

/-- JS `s.startsWith(p)` over the character list. -/
def strStartsWith (s p : String) : Bool := decide (s.data.take p.data.length = p.data)

/-- JS `s.endsWith(p)` over the character list. -/
def strEndsWith (s p : String) : Bool := decide ((s.data.reverse.take p.data.length).reverse = p.data)

/-- JS `s.trim()`: strip leading and trailing whitespace. -/
def strTrim (s : String) : String :=
  String.mk (((s.data.dropWhile Char.isWhitespace).reverse.dropWhile Char.isWhitespace).reverse)

/-- JS `s.toLowerCase()` over the character list. -/
def strLower (s : String) : String := String.mk (s.data.map Char.toLower)

/-- A single fact value stored in a draft or signal object.  In the source
these are JS strings and finite numbers (budget, bedrooms are integers). -/
inductive FactVal where
  | str (s : String)
  | num (n : Int)
deriving DecidableEq, Repr

/-- JS truthiness of a fact value: a non-empty string or a non-zero number. -/
def FactVal.truthy : FactVal → Bool
  | .str s => s ≠ ""
  | .num n => n ≠ 0

/-- JS `String(v)` coercion of a fact value. -/
def FactVal.toStr : FactVal → String
  | .str s => s
  | .num n => toString n

/-- A draft (or signal): a JS object mapping fact names to values; `none`
models an absent key (or an `undefined`/`null` value). -/
def Draft := String → Option FactVal

/-- Truthiness of an optional field access (`draft?.name ? ... : ...`). -/
def factTruthy : Option FactVal → Bool
  | none => false
  | some v => v.truthy

/-- JS `String(x ?? '')` for an optional field. -/
def optFactStr (v : Option FactVal) : String :=
  (v.map FactVal.toStr).getD ""

/-- The signal object `{}`: no fact present. -/
def emptySignal : Draft := fun _ => none

/-- `agentMergeDraft(prevDraft, signals)` from the source: copies the draft
and then, for each key of the signal, skips `undefined`/`null` values and
strings that are empty after trimming, otherwise overwrites the key. -/
def agentMergeDraft (prevDraft : Draft) (signals : Draft) : Draft :=
  fun key =>
    match signals key with
    | none => prevDraft key
    | some (.str s) => if strTrim s = "" then prevDraft key else some (.str s)
    | some (.num n) => some (.num n)

/-- `agentComputeLeadScore(draft)` from the source: base 25, a fixed point
list guarded by JS truthiness of each field, reduced by addition, then
capped by `Math.min(100, ·)`. -/
def agentComputeLeadScore (draft : Draft) : Int :=
  let base : Int := 25
  let points : List Int :=
    [ if factTruthy (draft "name") then 10 else 0,
      if factTruthy (draft "email") then 15 else 0,
      if factTruthy (draft "phone") then 15 else 0,
      if factTruthy (draft "intent") then 5 else 0,
      if factTruthy (draft "propertyType") then 10 else 0,
      if factTruthy (draft "location") then 10 else 0,
      if factTruthy (draft "bedrooms") then 5 else 0,
      if factTruthy (draft "budget") then 15 else 0 ]
  min 100 (points.foldl (· + ·) base)

/-- The `rank` object of `agentPickNextStageId`; `none` models a key that is
not in the object (JS yields `undefined` there). -/
def stageRank : String → Option Nat
  | "new" => some 0
  | "contacted" => some 1
  | "qualified" => some 2
  | "proposal" => some 3
  | "negotiation" => some 4
  | "won" => some 5
  | _ => none

/-- `agentPickNextStageId(prevStageId, draft)` from the source.
`prevStageId = none` models a JS `undefined` argument; `rank[x] ?? 0`
becomes `(·.bind stageRank).getD 0`. -/
def agentPickNextStageId (prevStageId : Option String) (draft : Draft) : String :=
  let currentRank := (prevStageId.bind stageRank).getD 0
  let desired :=
    if factTruthy (draft "intent") && factTruthy (draft "budget") &&
        (factTruthy (draft "location") || factTruthy (draft "propertyType")) then
      "qualified"
    else "contacted"
  let desiredRank := (stageRank desired).getD 0
  if desiredRank > currentRank then desired else prevStageId.getD desired

/-- `String(raw).replace(/\D/g, '')`: keep only decimal digits. -/
def digitsOnly (s : String) : String :=
  String.mk (s.data.filter Char.isDigit)

/-- The country-code step of `agentNormalizePhone`: strip a leading `55`
when the digit string is longer than 11 digits. -/
def agentPhoneTrim (digits : String) : String :=
  if strStartsWith digits "55" && strLength digits > 11 then strDrop digits 2 else digits

/-- The display-formatting step of `agentNormalizePhone`: 11-digit and
10-digit numbers are formatted `(xx) xxxxx-xxxx` / `(xx) xxxx-xxxx`,
anything else returns the raw input. -/
def agentPhoneFormat (raw : String) (trimmed : String) : String :=
  if strLength trimmed = 11 then
    "(" ++ strTake trimmed 2 ++ ") " ++ strTake (strDrop trimmed 2) 5 ++ "-" ++ strDrop trimmed 7
  else if strLength trimmed = 10 then
    "(" ++ strTake trimmed 2 ++ ") " ++ strTake (strDrop trimmed 2) 4 ++ "-" ++ strDrop trimmed 6
  else raw

/-- `agentNormalizePhone(raw)` from the source, as the composition of its
digit extraction, country-code stripping and display formatting. -/
def agentNormalizePhone (raw : String) : String :=
  agentPhoneFormat raw (agentPhoneTrim (digitsOnly raw))

/-- `MAX_EVENTS` from `server/index.js`. -/
def MAX_EVENTS : Nat := 500

/-- A stored webhook event: the assigned `seq` plus the admitted payload
(id, channel, sender, text, ... — opaque to the log, collapsed into one
string here). -/
structure StoredEvent where
  seq : Nat
  payload : String
deriving DecidableEq, Repr

/-- The module-level mutable state of the event log: the `eventSeq`
counter and the `events` array. -/
structure EventLogState where
  eventSeq : Nat
  events : List StoredEvent
deriving DecidableEq, Repr

/-- The state at server start: `eventSeq = 0`, `events = []`. -/
def initialEventLog : EventLogState := ⟨0, []⟩

/-- The eviction step of `pushEvent`:
`events.splice(0, events.length - MAX_EVENTS)` when the length exceeds
`MAX_EVENTS`, keeping the last `MAX_EVENTS` entries. -/
def logTrim (l : List StoredEvent) : List StoredEvent :=
  if l.length > MAX_EVENTS then l.drop (l.length - MAX_EVENTS) else l

/-- `pushEvent(event)` from the source: assign `seq = (eventSeq += 1)`,
push, then evict from the front. -/
def pushEvent (st : EventLogState) (payload : String) : StoredEvent × EventLogState :=
  let seq := st.eventSeq + 1
  let next : StoredEvent := ⟨seq, payload⟩
  (next, ⟨seq, logTrim (st.events ++ [next])⟩)

/-- The `GET /api/evolution/events` handler: filter the stored events to
those with `seq > after` and report `nextAfter = eventSeq`. -/
def readAfter (st : EventLogState) (after : Nat) : List StoredEvent × Nat :=
  (st.events.filter (fun e => after < e.seq), st.eventSeq)

/-- Run a sequence of webhook admissions against the fresh server state. -/
def admitAll (payloads : List String) : EventLogState :=
  payloads.foldl (fun st p => (pushEvent st p).2) initialEventLog

/-- The unbounded history of admissions starting after `k` previous ones:
the i-th payload of the list receives sequence number `k + i + 1`. -/
def fullLogFrom (k : Nat) : List String → List StoredEvent
  | [] => []
  | p :: ps => ⟨k + 1, p⟩ :: fullLogFrom (k + 1) ps

/-- The unbounded admission history of a payload list from a fresh log. -/
def fullLog (payloads : List String) : List StoredEvent := fullLogFrom 0 payloads

/-- Outcome of `fetch` on one candidate path. -/
inductive FetchOutcome where
  | http (status : Nat) (body : String)
  | netErr (msg : String)
deriving DecidableEq, Repr

/-- The result object built by `evolutionTryRequest` (success, HTTP error,
transport error, or config error), with absent JS fields as `none`. -/
structure EvoResult where
  ok : Bool
  status : Nat
  path : Option String := none
  data : Option String := none
  error : Option String := none
deriving DecidableEq, Repr

/-- `Response.ok` of `fetch`: status in the inclusive range 200–299. -/
def resOk (status : Nat) : Bool := 200 ≤ status && status < 300

/-- `normalizeBaseUrl(baseUrl)` from the source: trim, then strip one
trailing slash. -/
def normalizeBaseUrl (baseUrl : String) : String :=
  let trimmed := strTrim baseUrl
  if trimmed = "" then ""
  else if strEndsWith trimmed "/" then strTake trimmed (strLength trimmed - 1)
  else trimmed

/-- The `for (const candidate of paths)` loop of `evolutionTryRequest`,
with the `lastError` accumulator made explicit.  Besides the result it
returns the list of candidate paths actually fetched, in order.  A 2xx
response returns a success result for that candidate; a non-2xx, non-404
response returns that error immediately; a 404 records the error and
continues; a thrown transport error records a status-0 error and continues
(the `catch` branch has no `return`). -/
def evolutionLoop (env : String → FetchOutcome) :
    List String → Option EvoResult → EvoResult × List String
  | [], lastError =>
    (lastError.getD ⟨false, 500, none, none, some "Falha ao chamar Evolution API"⟩, [])
  | candidate :: rest, _lastError =>
    match env candidate with
    | .http s body =>
      if resOk s then (⟨true, s, some candidate, some body, none⟩, [candidate])
      else
        let e : EvoResult := ⟨false, s, some candidate, some body, none⟩
        if s ≠ 404 then (e, [candidate])
        else
          let r := evolutionLoop env rest (some e)
          (r.1, candidate :: r.2)
    | .netErr msg =>
      let e : EvoResult := ⟨false, 0, some candidate, none, some msg⟩
      let r := evolutionLoop env rest (some e)
      (r.1, candidate :: r.2)

/-- `evolutionTryRequest({baseUrl, apiKey, method, paths, body})` from the
source: fail fast on an empty normalized base URL, otherwise run the
candidate loop (headers and the request body do not influence the control
flow modelled here). -/
def evolutionTryRequest (baseUrl : String) (env : String → FetchOutcome)
    (paths : List String) : EvoResult × List String :=
  if normalizeBaseUrl baseUrl = "" then
    (⟨false, 400, none, none, some "EVOLUTION_BASE_URL ausente"⟩, [])
  else evolutionLoop env paths none

/-- A stored lead record (the fields built in `leadPayload` plus `id`). -/
structure Lead where
  id : String
  name : String := ""
  company : String := ""
  email : String := ""
  phone : String := ""
  origin : String := ""
  score : Int := 0
  stageId : String := "new"
  value : Int := 0
  lastTouch : String := ""
deriving DecidableEq, Repr

/-- A stored CRM task (follow-up or automation step task). -/
structure CrmTask where
  id : String
  title : String := ""
  note : String := ""
  kind : String := ""
  dueLabel : String := ""
  overdue : Bool := false
  priority : String := ""
  related : String := ""
  done : Bool := false
deriving DecidableEq, Repr

/-- One step of an automation definition. -/
structure AutomationStep where
  waitMinutes : Int := 0
  message : String := ""
  channel : String := ""
deriving DecidableEq, Repr

/-- An automation definition from the automation store. -/
structure Automation where
  name : String := ""
  active : Bool := false
  trigger : String := ""
  steps : List AutomationStep := []
deriving DecidableEq, Repr

/-- A stored deal record (the fields built for `newDeal`). -/
structure Deal where
  id : String
  title : String := ""
  company : String := ""
  stageId : String := ""
  amount : Int := 0
  probability : Int := 0
  closeDate : String := ""
  initials : String := ""
deriving Repr

/-- The per-channel agent session (`sessionsRef.current[channelId]`),
defaulting to `{ leadId: null, draft: {} }`.  The JS `leadId`/`dealId`
values are strings or `null`/`undefined`; every use is either a truthiness
test or an equality with a non-empty id, so the falsy values are collapsed
into `""`. -/
structure AgentSession where
  leadId : String := ""
  dealId : String := ""
  draft : Draft := emptySignal
  peer : Option String := none
  automationsTriggered : Bool := false

/-- The settings flags read by the workflow; in the source each check is
`currentSettings.x !== false`, so a missing setting behaves as `true`. -/
structure AgentSettings where
  autoCreateLead : Bool := true
  autoCreateTask : Bool := true
  autoCreateDeal : Bool := true
  triggerMarketingAutomations : Bool := true
deriving DecidableEq, Repr

/-- The stores and configuration visible to one workflow run. -/
structure WorkflowEnv where
  session : AgentSession
  leads : List Lead := []
  automations : List Automation := []
  settings : AgentSettings := {}
  channelLabel : String := "WhatsApp"
  origin : String := "whatsapp"

/-- Per-message input: the extracted signals, the author display name, the
peer id, and the fresh `createId` values this turn may consume
(`autoTaskId a s` is the id of the task for step `s` of the `a`-th active
automation). -/
structure AgentTurn where
  signals : Draft
  author : String := ""
  peer : Option String := none
  freshLeadId : String := "k1"
  freshTaskId : String := "t1"
  freshDealId : String := "d1"
  autoTaskId : Nat → Nat → String := fun _ _ => "ta"

/-- Everything `runAgentWorkflow` writes: the new session, the full lead
list after create/update, the follow-up task and automation tasks pushed to
the task store, the created deal, and the per-turn booleans. -/
structure WorkflowResult where
  session : AgentSession
  leads : List Lead
  followUpTask : Option CrmTask
  automationTasks : List CrmTask
  newDeal : Option Deal
  createdLead : Bool
  createdDeal : Bool
  createdTasks : Bool
  triggeredAutomations : Bool

/-- `draft.name?.trim() ? draft.name.trim() : fallback` (also used for the
company field).  A numeric fact would throw on `.trim()` in JS; such drafts
do not arise, and the model returns the fallback for them. -/
def trimmedOr (v : Option FactVal) (fallback : String) : String :=
  match v with
  | some (.str s) => if strTrim s = "" then fallback else strTrim s
  | _ => fallback

/-- `Number(draft.budget) > 0` and `Math.round` for the integer budgets that
reach this code; a string-valued budget fact (which the extractor never
stores) is modelled as not-a-number, i.e. `none`. -/
def budgetNum (v : Option FactVal) : Option Int :=
  match v with
  | some (.num n) => some n
  | _ => none

/-- The email matcher of the resolver: case-insensitive equality between
the stored lead's email and the draft email
(`String(lead.email ?? '').toLowerCase() === String(nextDraft.email).toLowerCase()`). -/
def leadEmailMatches (email : String) (l : Lead) : Bool :=
  strLower l.email = strLower email

/-- The phone matcher of the resolver: the stored lead's digits-only phone
is non-empty and equals the draft's digits-only phone. -/
def leadPhoneMatches (normalizedPhone : String) (l : Lead) : Bool :=
  digitsOnly l.phone ≠ "" && digitsOnly l.phone = normalizedPhone

/-- The first `if (!leadId && nextDraft.email)` block of the resolver. -/
def resolveByEmail (storedLeadList : List Lead) (leadId0 : String) (nextDraft : Draft) : String :=
  if leadId0 = "" && factTruthy (nextDraft "email") then
    match storedLeadList.find? (leadEmailMatches (optFactStr (nextDraft "email"))) with
    | some existing => existing.id
    | none => leadId0
  else leadId0

/-- The second `if (!leadId && nextDraft.phone)` block of the resolver. -/
def resolveByPhone (storedLeadList : List Lead) (leadId1 : String) (nextDraft : Draft) : String :=
  if leadId1 = "" && factTruthy (nextDraft "phone") then
    match storedLeadList.find? (leadPhoneMatches (digitsOnly (optFactStr (nextDraft "phone")))) with
    | some existing => existing.id
    | none => leadId1
  else leadId1

/-- The identity-resolution chain of `runAgentWorkflow`: reuse a truthy
session `leadId`; otherwise try the first case-insensitive email match;
otherwise the first digits-only phone match (the JS falsy values of the
`leadId` variable are collapsed into `""`). -/
def agentResolveLeadId (storedLeadList : List Lead) (sessionLeadId : String)
    (nextDraft : Draft) : String :=
  resolveByPhone storedLeadList (resolveByEmail storedLeadList sessionLeadId nextDraft) nextDraft

/-- The create-or-update effect on the lead store: prepend a fresh lead on
the creation branch, overwrite every field but `id` of the matched lead on
the update branch, touch nothing otherwise. -/
def agentUpdateLeadStore (createdLead : Bool) (leadId3 : String) (leadPayload : Lead)
    (storedLeadList : List Lead) : List Lead :=
  if createdLead then { leadPayload with id := leadId3 } :: storedLeadList
  else if leadId3 ≠ "" then
    storedLeadList.map (fun (l : Lead) => if l.id = leadId3 then { leadPayload with id := l.id } else l)
  else storedLeadList

/-- The task built for step `idx` (0-based) of automation `auto`. -/
def agentAutomationTask (auto : Automation) (idx : Nat) (step : AutomationStep)
    (id : String) (relatedName : String) : CrmTask :=
  let minutes := max 0 step.waitMinutes
  { id := id
    title := "Automação: " ++ auto.name ++ " · Passo " ++ toString (idx + 1)
    note := if strTrim step.message = "" then "Enviar mensagem automática" else strTrim step.message
    kind := if step.channel = "email" then "email" else "follow_up"
    dueLabel := if minutes ≠ 0 then toString minutes ++ " min" else "Agora"
    overdue := false
    priority := "medium"
    related := relatedName
    done := false }

/-- The automation block of `runAgentWorkflow`: when marketing automations
are enabled, the lead was created this turn with a truthy id, at least one
active `new_lead` automation exists and the session flag is still false,
every step of every active `new_lead` automation becomes one task. -/
def agentAutomationBlock (automations : List Automation) (settings : AgentSettings)
    (alreadyTriggered createdLead : Bool) (leadId3 : String)
    (autoTaskId : Nat → Nat → String) (relatedName : String) : List CrmTask :=
  let activeAutomations :=
    if settings.triggerMarketingAutomations then
      automations.filter (fun a => a.active && a.trigger = "new_lead")
    else []
  let fireCond :=
    createdLead && leadId3 ≠ "" && !activeAutomations.isEmpty && !alreadyTriggered
  if fireCond then
    (activeAutomations.enum.map (fun ai =>
      ai.2.steps.enum.map (fun si =>
        agentAutomationTask ai.2 si.1 si.2 (autoTaskId ai.1 si.1) relatedName))).flatten
  else []

/-- One run of the orchestrator body of `runAgentWorkflow` (everything after
signal extraction), mirroring the source statement by statement. -/
def runAgentStep (env : WorkflowEnv) (turn : AgentTurn) : WorkflowResult :=
  let channelSession := env.session
  let storedLeadList := env.leads
  let currentSettings := env.settings
  let normalizedAuthor := strTrim turn.author
  let nextDraft := agentMergeDraft channelSession.draft turn.signals
  let nextScore := agentComputeLeadScore nextDraft
  let stageSeed : Option String :=
    if channelSession.leadId ≠ "" then
      (storedLeadList.find? (fun (l : Lead) => l.id = channelSession.leadId)).map Lead.stageId
    else some "new"
  let nextStageId := agentPickNextStageId stageSeed nextDraft
  let fallbackName :=
    if normalizedAuthor ≠ "" && normalizedAuthor ≠ "Você" then normalizedAuthor
    else "Lead " ++ env.channelLabel
  let leadName := trimmedOr (nextDraft "name") fallbackName
  -- identity resolution: session leadId, then email, then phone
  let leadId2 := agentResolveLeadId storedLeadList channelSession.leadId nextDraft
  let leadPayload : Lead :=
    { id := ""
      name := leadName
      company := trimmedOr (nextDraft "company") ""
      email := optFactStr (nextDraft "email")
      phone := optFactStr (nextDraft "phone")
      origin := env.origin
      score := nextScore
      stageId := nextStageId
      value := if factTruthy (nextDraft "budget") then (budgetNum (nextDraft "budget")).getD 0 else 0
      lastTouch := "agora" }
  -- create-or-update branch
  let createdLead := leadId2 = "" && currentSettings.autoCreateLead
  let leadId3 : String := if createdLead then turn.freshLeadId else leadId2
  let leads1 := agentUpdateLeadStore createdLead leadId3 leadPayload storedLeadList
  -- follow-up task
  let mkFollowUp := createdLead && leadId3 ≠ "" && currentSettings.autoCreateTask
  let followUpTask : Option CrmTask :=
    if mkFollowUp then
      some { id := turn.freshTaskId
             title := "Follow-up " ++ leadPayload.name
             note := "Agente IA registrou um novo lead. Responder e qualificar o atendimento."
             kind := "follow_up"
             dueLabel := "Hoje"
             overdue := false
             priority := "high"
             related := leadPayload.name
             done := false }
    else none
  let createdTasks := mkFollowUp
  -- deal block
  let nextDealId0 := channelSession.dealId
  let eligibleForDeal :=
    leadId3 ≠ "" && currentSettings.autoCreateDeal && nextDealId0 = "" &&
      factTruthy (nextDraft "intent") && ((budgetNum (nextDraft "budget")).getD 0 > 0 &&
        (budgetNum (nextDraft "budget")).isSome)
  let newDeal : Option Deal :=
    if eligibleForDeal then
      let intentLabel :=
        match optFactStr (nextDraft "intent") with
        | "buy" => "Compra" | "rent" => "Locação" | "sell" => "Venda" | _ => "Negócio"
      let dealTitleParts :=
        [intentLabel, optFactStr (nextDraft "propertyType"),
          if factTruthy (nextDraft "location") then "em " ++ optFactStr (nextDraft "location") else ""]
          |>.filter (· ≠ "")
      let dealTitle := String.intercalate " " dealTitleParts
      let dealCompany := if leadPayload.company ≠ "" then leadPayload.company else leadPayload.name
      some { id := turn.freshDealId
             title := if dealTitle ≠ "" then dealTitle else "Negócio " ++ leadPayload.name
             company := dealCompany
             stageId := "discovery"
             amount := (budgetNum (nextDraft "budget")).getD 0
             probability := 25
             closeDate := "30 dias"
             initials := "" }
    else none
  let createdDeal := eligibleForDeal
  let nextDealId := if createdDeal then turn.freshDealId else nextDealId0
  -- automation block
  let automationsAlreadyTriggered := channelSession.automationsTriggered
  let automationTasks : List CrmTask :=
    agentAutomationBlock env.automations currentSettings automationsAlreadyTriggered
      createdLead leadId3 turn.autoTaskId leadPayload.name
  let triggeredAutomations := !automationTasks.isEmpty
  { session :=
      { leadId := leadId3
        dealId := nextDealId
        draft := nextDraft
        peer := turn.peer.orElse (fun _ => channelSession.peer)
        automationsTriggered := channelSession.automationsTriggered || triggeredAutomations }
    leads := leads1
    followUpTask := followUpTask
    automationTasks := automationTasks
    newDeal := newDeal
    createdLead := createdLead
    createdDeal := createdDeal
    createdTasks := createdTasks
    triggeredAutomations := triggeredAutomations }

/-- The environment after a turn: the session and lead store are updated,
automations and settings are shared configuration. -/
def envAfter (env : WorkflowEnv) (turn : AgentTurn) : WorkflowEnv :=
  let r := runAgentStep env turn
  { env with session := r.session, leads := r.leads }

/-- The `triggeredAutomations` outcome of each turn of a conversation, in
order. -/
def agentFireList (env : WorkflowEnv) : List AgentTurn → List Bool
  | [] => []
  | turn :: rest =>
    (runAgentStep env turn).triggeredAutomations :: agentFireList (envAfter env turn) rest

/-- The pipeline stage order of the specification:
new < contacted < qualified < proposal < negotiation < won. -/
def pipelineStages : List String :=
  ["new", "contacted", "qualified", "proposal", "negotiation", "won"]

/-- Rank of a stage in the pipeline order (unknown stages rank 0, as in the
source's `rank[x] ?? 0`). -/
def stageRankOf (s : String) : Nat := (stageRank s).getD 0

/-- The specification's desired stage: `qualified` iff the draft has intent
and budget and (location or propertyType) — "has" meaning the fact is
stored with a truthy (non-empty / non-zero) value — else `contacted`. -/
def specDesiredStage (draft : Draft) : String :=
  if factTruthy (draft "intent") && factTruthy (draft "budget") &&
      (factTruthy (draft "location") || factTruthy (draft "propertyType")) then
    "qualified"
  else "contacted"

/-- Maximum of two stages under the pipeline order. -/
def specStageMax (a b : String) : String :=
  if stageRankOf a < stageRankOf b then b else a

/-- The claim's reading of the score: a weight is granted whenever the
field is *present* in the draft. -/
def specScorePresence (draft : Draft) : Int :=
  min 100 (25 + (if (draft "name").isSome then 10 else 0)
    + (if (draft "email").isSome then 15 else 0)
    + (if (draft "phone").isSome then 15 else 0)
    + (if (draft "intent").isSome then 5 else 0)
    + (if (draft "propertyType").isSome then 10 else 0)
    + (if (draft "location").isSome then 10 else 0)
    + (if (draft "bedrooms").isSome then 5 else 0)
    + (if (draft "budget").isSome then 15 else 0))

/-- The corrected reading of the score: a weight is granted whenever the
field is present with a truthy value (non-empty string, non-zero number). -/
def specScoreTruthy (draft : Draft) : Int :=
  min 100 (25 + (if factTruthy (draft "name") then 10 else 0)
    + (if factTruthy (draft "email") then 15 else 0)
    + (if factTruthy (draft "phone") then 15 else 0)
    + (if factTruthy (draft "intent") then 5 else 0)
    + (if factTruthy (draft "propertyType") then 10 else 0)
    + (if factTruthy (draft "location") then 10 else 0)
    + (if factTruthy (draft "bedrooms") then 5 else 0)
    + (if factTruthy (draft "budget") then 15 else 0))

/-- A signal value that the merger writes: a string that is non-empty after
trimming, or any (finite) number. -/
def specMergeable : Option FactVal → Bool
  | some (.str v) => strTrim v ≠ ""
  | some (.num _) => true
  | none => false

/-- The claim's reading of phone normalization: strip the leading `55` iff
the *remainder* after stripping has 11 or more digits. -/
def specPhoneTrimC8 (digits : String) : String :=
  if strStartsWith digits "55" && 11 ≤ strLength (strDrop digits 2) then strDrop digits 2
  else digits

/-- Phone normalization as the claim describes it. -/
def specNormalizePhoneC8 (raw : String) : String :=
  agentPhoneFormat raw (specPhoneTrimC8 (digitsOnly raw))

/-- The `crm_leads_score_range` check constraint of the `crm_leads` table
(`supabase` schema): `score >= 0 and score <= 100`. -/
def crm_leads_score_range (score : Int) : Prop := 0 ≤ score ∧ score ≤ 100

/-- A draft whose only fact is `bedrooms = 0` (reachable from the message
"0 quartos": the extractor clamps bedroom counts to [0,12] and stores 0, and
the merger copies any number into the draft). -/
def bedroomsZeroDraft : Draft := fun k => if k = "bedrooms" then some (.num 0) else none

/-- A draft and signal for the C5 witness: the signal's `name` is written,
its blank `email` and its absent `phone` are no-ops. -/
def mergeDemoDraft : Draft := fun _ => some (.str "old")

/-- The signal object `{ name: "Ana", email: "  " }` used by the C5 witness. -/
def mergeDemoSignal : Draft := fun k =>
  if k = "name" then some (.str "Ana")
  else if k = "email" then some (.str "  ")
  else none

/-- The C6 witness environment: candidates A and B return 404, C returns
200 with body `ok`. -/
def envGatewayABC : String → FetchOutcome := fun p =>
  if p = "A" then .http 404 "nfA"
  else if p = "B" then .http 404 "nfB"
  else .http 200 "ok"

/-- The C7 counterexample environment: candidate A throws a transport
error, candidate B answers 200. -/
def envGatewayNet : String → FetchOutcome := fun p =>
  if p = "A" then .netErr "boom" else .http 200 "ok"

/-- The C7-amended witness environment: A throws a transport error, B
returns 404. -/
def envGatewayNet404 : String → FetchOutcome := fun p =>
  if p = "A" then .netErr "boom" else .http 404 "nf"

/-- A concrete active `new_lead` automation with one step. -/
def demoAutomation : Automation :=
  { name := "Boas-vindas", active := true, trigger := "new_lead",
    steps := [{ waitMinutes := 5, message := "Olá!", channel := "whatsapp" }] }

/-- A fresh-session environment with one active automation. -/
def demoEnvC2 : WorkflowEnv :=
  { session := {}, leads := [], automations := [demoAutomation], settings := {} }

/-- A turn with no extracted signals. -/
def demoTurn : AgentTurn := { signals := emptySignal }

/-- The claim's email rule: the first lead whose email equals the draft's
email case-insensitively. -/
def specFirstEmailMatch (leads : List Lead) (email : String) : Option Lead :=
  leads.find? (fun l => strLower l.email = strLower email)

/-- The claim's phone rule: the first lead whose digits-only phone equals
the draft's digits-only phone. -/
def specFirstPhoneMatch (leads : List Lead) (digits : String) : Option Lead :=
  leads.find? (fun l => digitsOnly l.phone = digits)

/-- The draft's email as offered to the resolver (absent unless truthy). -/
def draftEmailArg (nd : Draft) : Option String :=
  if factTruthy (nd "email") then some (optFactStr (nd "email")) else none

/-- The draft's digits-only phone as offered to the resolver. -/
def draftPhoneArg (nd : Draft) : Option String :=
  if factTruthy (nd "phone") then some (digitsOnly (optFactStr (nd "phone"))) else none

/-- The dedup resolver as the claim states it: reuse the session's lead id;
else first email match; else first phone match; else new (`none`). -/
def specResolve (leads : List Lead) (sessionLeadId : String)
    (email : Option String) (phoneDigits : Option String) : Option String :=
  if sessionLeadId ≠ "" then some sessionLeadId
  else
    match email.bind (fun e => specFirstEmailMatch leads e) with
    | some l => some l.id
    | none =>
      match phoneDigits.bind (fun p => specFirstPhoneMatch leads p) with
      | some l => some l.id
      | none => none

/-- A stored lead for the C9 witness (upper-case stored email). -/
def demoLeadAna : Lead :=
  { id := "L1", name := "Ana", email := "ANA@EXEMPLO.com", phone := "(11) 99999-8888" }

/-- A fresh session over a one-lead store. -/
def demoEnvC9 : WorkflowEnv :=
  { session := {}, leads := [demoLeadAna], automations := [], settings := {} }

/-- A turn whose only signal is the lower-case email of the stored lead. -/
def demoTurnC9 : AgentTurn :=
  { signals := fun k => if k = "email" then some (.str "ana@exemplo.com") else none }

/-- The lead created by the C10 witness run (head of the resulting store). -/
def demoCreatedLead : Lead :=
  ((runAgentStep demoEnvC2 demoTurn).leads.head?).getD { id := "" }

example : agentNormalizePhone "551234567890" = "(12) 3456-7890" := by decide

example : agentNormalizePhone "5511987654321" = "(11) 98765-4321" := by decide

example : agentNormalizePhone "abc" = "abc" := by decide

/-- Helper: the digits-only form is idempotent. -/
theorem digitsOnly_idem (s : String) : digitsOnly (digitsOnly s) = digitsOnly s := by
  unfold digitsOnly
  simp [List.filter_filter]

/-- C3: for every current stage in the pipeline order and every draft,
`agentPickNextStageId` returns the maximum of the current stage and the
desired stage (`qualified` iff the draft has truthy intent, budget, and
location-or-propertyType, else `contacted`); with no current stage it
returns the desired stage; and it never returns a stage ranked below the
input stage. -/
theorem nextStage_is_max (prev : String) (draft : Draft) (hprev : prev ∈ pipelineStages) :
    agentPickNextStageId (some prev) draft = specStageMax prev (specDesiredStage draft) ∧
    agentPickNextStageId none draft = specDesiredStage draft ∧
    stageRankOf prev ≤ stageRankOf (agentPickNextStageId (some prev) draft) := by
  fin_cases hprev <;>
    cases hcond : (factTruthy (draft "intent") && factTruthy (draft "budget") &&
        (factTruthy (draft "location") || factTruthy (draft "propertyType"))) <;>
      simp [agentPickNextStageId, specDesiredStage, specStageMax, stageRankOf, stageRank, hcond]

/-- C3 witness: instantiated at stage `contacted` and the draft whose only
fact is `bedrooms = 0`. -/
theorem nextStage_is_max_witness :
    agentPickNextStageId (some "contacted") bedroomsZeroDraft =
      specStageMax "contacted" (specDesiredStage bedroomsZeroDraft) ∧
    agentPickNextStageId none bedroomsZeroDraft = specDesiredStage bedroomsZeroDraft ∧
    stageRankOf "contacted" ≤ stageRankOf (agentPickNextStageId (some "contacted") bedroomsZeroDraft) :=
  nextStage_is_max "contacted" bedroomsZeroDraft (by decide)

/-- C4 counterexample: on the draft whose only fact is `bedrooms = 0` the
code scores 25, while the claim's presence-based formula gives 30 — a
present-but-zero bedrooms fact earns no weight. -/
theorem score_presence_counterexample :
    agentComputeLeadScore bedroomsZeroDraft = 25 ∧
    specScorePresence bedroomsZeroDraft = 30 ∧
    agentComputeLeadScore bedroomsZeroDraft ≠ specScorePresence bedroomsZeroDraft := by
  decide

/-- Helper: the computed score always lies in [25, 100]. -/
theorem agentComputeLeadScore_bounds (draft : Draft) :
    25 ≤ agentComputeLeadScore draft ∧ agentComputeLeadScore draft ≤ 100 := by
  unfold agentComputeLeadScore
  simp only [List.foldl]
  cases factTruthy (draft "name") <;> cases factTruthy (draft "email") <;>
    cases factTruthy (draft "phone") <;> cases factTruthy (draft "intent") <;>
    cases factTruthy (draft "propertyType") <;> cases factTruthy (draft "location") <;>
    cases factTruthy (draft "bedrooms") <;> cases factTruthy (draft "budget") <;>
    exact ⟨by decide, by decide⟩

/-- C4 (amended): for every draft the score equals
min(100, 25 + the fixed weights of the fields stored with a truthy value
(non-empty string / non-zero number)), an integer in [25, 100] ⊆ [0, 100]. -/
theorem score_truthy_formula (draft : Draft) :
    agentComputeLeadScore draft = specScoreTruthy draft ∧
    25 ≤ agentComputeLeadScore draft ∧ agentComputeLeadScore draft ≤ 100 :=
  ⟨rfl, agentComputeLeadScore_bounds draft⟩

/-- C5: merging the empty signal is the identity, and merging overwrites
exactly the fields present in the signal with a writable value (a string
that is non-empty after trimming, or a number), leaving every other field
of the draft unchanged. -/
theorem merge_contract :
    (∀ d : Draft, agentMergeDraft d emptySignal = d) ∧
    (∀ (d s : Draft) (k : String),
      (specMergeable (s k) = true → agentMergeDraft d s k = s k) ∧
      (specMergeable (s k) = false → agentMergeDraft d s k = d k)) := by
  constructor
  · intro d; funext k; rfl
  · intro d s k
    constructor <;> intro h <;>
      · unfold agentMergeDraft
        unfold specMergeable at h
        cases hs : s k with
        | none => simp [hs] at h ⊢
        | some v =>
          cases v with
          | str t =>
            simp only [hs] at h ⊢
            simp_all
          | num n => simp [hs] at h ⊢

/-- C5 witness: a concrete overwrite, a concrete blank-string no-op, and a
concrete absent-field no-op. -/
theorem merge_contract_witness :
    agentMergeDraft mergeDemoDraft mergeDemoSignal "name" = mergeDemoSignal "name" ∧
    agentMergeDraft mergeDemoDraft mergeDemoSignal "email" = mergeDemoDraft "email" ∧
    agentMergeDraft mergeDemoDraft mergeDemoSignal "phone" = mergeDemoDraft "phone" :=
  ⟨(merge_contract.2 mergeDemoDraft mergeDemoSignal "name").1 (by decide),
   (merge_contract.2 mergeDemoDraft mergeDemoSignal "email").2 (by decide),
   (merge_contract.2 mergeDemoDraft mergeDemoSignal "phone").2 (by decide)⟩

/-- C8 counterexample: the digits-only input `551234567890` (12 digits)
begins with 55 and its remainder after stripping has only 10 digits, yet
the code strips the 55 (the source condition is `digits.length > 11`, i.e.
remainder ≥ 10) and formats the remainder, while the claim's ≥ 11-digit
remainder rule would leave the token untouched. -/
theorem phone_strip_counterexample :
    agentNormalizePhone "551234567890" = "(12) 3456-7890" ∧
    specNormalizePhoneC8 "551234567890" = "551234567890" ∧
    agentNormalizePhone "551234567890" ≠ specNormalizePhoneC8 "551234567890" := by
  decide

/-- C8 (amended): for a digits-only form beginning with `55`, the leading
`55` is stripped iff the digits-only form has 12 or more digits
(equivalently, iff the remainder after stripping has 10 or more digits);
and the resolver's phone matcher depends only on the digits-only form of
the stored phone. -/
theorem phone_strip_rule (raw : String) (h55 : strStartsWith (digitsOnly raw) "55" = true) :
    (12 ≤ strLength (digitsOnly raw) →
      agentPhoneTrim (digitsOnly raw) = strDrop (digitsOnly raw) 2 ∧
      10 ≤ strLength (strDrop (digitsOnly raw) 2)) ∧
    (strLength (digitsOnly raw) < 12 → agentPhoneTrim (digitsOnly raw) = digitsOnly raw) ∧
    (∀ (l : Lead) (p : String),
      leadPhoneMatches p { l with phone := digitsOnly l.phone } = leadPhoneMatches p l) := by
  refine ⟨?_, ?_, ?_⟩
  · intro hlen
    constructor
    · unfold agentPhoneTrim
      simp [h55]
      omega
    · unfold strLength strDrop at *
      simp only [String.data]
      rw [List.length_drop]
      omega
  · intro hlen
    unfold agentPhoneTrim
    simp [h55]
    omega
  · intro l p
    unfold leadPhoneMatches
    simp [digitsOnly_idem]

/-- C8 witness: a 13-digit token with country code is stripped to 11
digits, and a 12-digit one is stripped to 10. -/
theorem phone_strip_rule_witness :
    (12 ≤ strLength (digitsOnly "5511987654321") →
      agentPhoneTrim (digitsOnly "5511987654321") = strDrop (digitsOnly "5511987654321") 2 ∧
      10 ≤ strLength (strDrop (digitsOnly "5511987654321") 2)) ∧
    (strLength (digitsOnly "5511987654321") < 12 →
      agentPhoneTrim (digitsOnly "5511987654321") = digitsOnly "5511987654321") ∧
    (∀ (l : Lead) (p : String),
      leadPhoneMatches p { l with phone := digitsOnly l.phone } = leadPhoneMatches p l) :=
  phone_strip_rule "5511987654321" (by decide)

/-- Helper: the length of an admission history. -/
theorem fullLogFrom_length (k : Nat) (ps : List String) :
    (fullLogFrom k ps).length = ps.length := by
  induction ps generalizing k with
  | nil => rfl
  | cons p ps ih => simp [fullLogFrom, ih]

/-- Helper: admitting one more payload extends the history with sequence
number `k + length + 1`. -/
theorem fullLogFrom_append (k : Nat) (ps : List String) (p : String) :
    fullLogFrom k (ps ++ [p]) = fullLogFrom k ps ++ [⟨k + ps.length + 1, p⟩] := by
  induction ps generalizing k with
  | nil => simp [fullLogFrom]
  | cons q ps ih =>
    have harith : k + 1 + ps.length + 1 = k + (ps.length + 1) + 1 := by omega
    simp only [List.cons_append, fullLogFrom, List.length_cons, List.append_eq]
    rw [ih, harith]

/-- Helper: every sequence number in an admission history from `k` exceeds
`k`. -/
theorem fullLogFrom_seq_pos (k : Nat) (ps : List String) :
    ∀ e ∈ fullLogFrom k ps, k < e.seq := by
  induction ps generalizing k with
  | nil => simp [fullLogFrom]
  | cons p ps ih =>
    intro e he
    simp only [fullLogFrom, List.mem_cons] at he
    rcases he with rfl | he
    · simp
    · have := ih (k + 1) e he
      omega

/-- Helper: the resulting state of one admission, written out. -/
theorem pushEvent_state (st : EventLogState) (p : String) :
    (pushEvent st p).2 =
      { eventSeq := st.eventSeq + 1
        events := logTrim (st.events ++ [{ seq := st.eventSeq + 1, payload := p }]) } := rfl

set_option maxRecDepth 10000 in
/-- Helper: the state after any admission sequence — the counter equals the
number of admissions and the stored events are the last `MAX_EVENTS`
entries of the unbounded admission history. -/
theorem admitAll_spec (ps : List String) :
    admitAll ps = ⟨ps.length, (fullLog ps).drop (ps.length - MAX_EVENTS)⟩ := by
  induction ps using List.reverseRecOn with
  | nil => rfl
  | append_singleton ps p ih =>
    have hlen : (fullLog ps).length = ps.length := fullLogFrom_length 0 ps
    have hfull : fullLog (ps ++ [p]) = fullLog ps ++ [{ seq := ps.length + 1, payload := p }] := by
      have h := fullLogFrom_append 0 ps p
      simpa [fullLog] using h
    have hstep : admitAll (ps ++ [p]) = (pushEvent (admitAll ps) p).2 := by
      unfold admitAll
      rw [List.foldl_append]
      rfl
    rw [hstep, ih, pushEvent_state, EventLogState.mk.injEq]
    refine ⟨by simp, ?_⟩
    rw [hfull]
    unfold logTrim
    rw [List.length_append, List.length_drop, hlen, List.length_singleton]
    simp only [MAX_EVENTS]
    simp only [List.length_append, List.length_singleton]
    by_cases hn : ps.length < 500
    · rw [if_neg (by omega)]
      have h0 : ps.length - 500 = 0 := by omega
      have h1 : ps.length + 1 - 500 = 0 := by omega
      rw [h0, h1, List.drop_zero, List.drop_zero]
    · rw [if_pos (by omega)]
      have hd1 : ps.length - (ps.length - 500) + 1 - 500 = 1 := by omega
      rw [hd1]
      have hle1 : 1 ≤ ((fullLog ps).drop (ps.length - 500)).length := by
        rw [List.length_drop, hlen]; omega
      rw [List.drop_append_of_le_length hle1, List.drop_drop]
      have hle2 : ps.length + 1 - 500 ≤ (fullLog ps).length := by
        rw [hlen]; omega
      rw [List.drop_append_of_le_length hle2]
      congr 2
      omega

/-- C1: across any sequence of admissions from server start, sequence
numbers start at 1 and advance by exactly 1 per admitted event (each
admission returns sequence `eventSeq + 1` and the counter is never reset),
the stored log is always the last `MAX_EVENTS = 500` entries of the full
admission history (so no sequence number is ever reused and at most 500
events are held), and after 501 admissions the log holds 500 events while
`readAfter 0` returns those last 500 events with next cursor 501. -/
theorem eventLog_contract (ps : List String) :
    (admitAll ps).eventSeq = ps.length ∧
    (admitAll ps).events = (fullLog ps).drop (ps.length - MAX_EVENTS) ∧
    (admitAll ps).events.length ≤ MAX_EVENTS ∧
    (∀ (st : EventLogState) (p : String),
      (pushEvent st p).1.seq = st.eventSeq + 1 ∧ (pushEvent st p).2.eventSeq = st.eventSeq + 1) ∧
    (ps.length = 501 →
      (admitAll ps).events.length = MAX_EVENTS ∧
      readAfter (admitAll ps) 0 = ((fullLog ps).drop 1, 501)) := by
  have hspec := admitAll_spec ps
  have hlen : (fullLog ps).length = ps.length := fullLogFrom_length 0 ps
  refine ⟨by rw [hspec], by rw [hspec], ?_, fun st p => ⟨rfl, rfl⟩, ?_⟩
  · rw [hspec]
    simp only [List.length_drop, hlen]
    omega
  · intro h501
    have hdrop : ps.length - MAX_EVENTS = 1 := by simp [MAX_EVENTS, h501]
    constructor
    · rw [hspec]
      simp only [hdrop, List.length_drop, hlen, h501]
      rfl
    · unfold readAfter
      rw [hspec]
      simp only [hdrop]
      rw [Prod.mk.injEq]
      constructor
      · apply List.filter_eq_self.mpr
        intro e he
        have hmem : e ∈ fullLog ps := List.mem_of_mem_drop he
        have := fullLogFrom_seq_pos 0 ps e hmem
        simpa using this
      · exact h501

/-- C1 witness: the 501-admission scenario run on a concrete payload list. -/
theorem eventLog_contract_witness :
    (admitAll (List.replicate 501 "m")).events.length = MAX_EVENTS ∧
    readAfter (admitAll (List.replicate 501 "m")) 0 =
      ((fullLog (List.replicate 501 "m")).drop 1, 501) :=
  (eventLog_contract (List.replicate 501 "m")).2.2.2.2 (by rw [List.length_replicate])

/-- Helper: on a non-empty candidate list the loop never consults the
incoming `lastError` accumulator. -/
theorem evolutionLoop_last_irrel (env : String → FetchOutcome) (c : String)
    (rest : List String) (l1 l2 : Option EvoResult) :
    evolutionLoop env (c :: rest) l1 = evolutionLoop env (c :: rest) l2 := by
  cases h : env c <;> simp [evolutionLoop, h]

/-- Helper: on candidate lists whose every path yields an HTTP response,
the loop stops at the first non-404 response — succeeding on 2xx, failing
immediately otherwise — and an all-404 list ends with the last 404. -/
theorem evolutionLoop_http_spec (env : String → FetchOutcome) :
    ∀ (paths : List String), paths ≠ [] →
    (∀ q ∈ paths, ∃ s b, env q = FetchOutcome.http s b) →
    ∀ (last : Option EvoResult),
    ∃ pre p post s b,
      paths = pre ++ p :: post ∧
      env p = FetchOutcome.http s b ∧
      (∀ q ∈ pre, ∃ b2, env q = FetchOutcome.http 404 b2) ∧
      (evolutionLoop env paths last).2 = pre ++ [p] ∧
      (resOk s = true →
        (evolutionLoop env paths last).1 = ⟨true, s, some p, some b, none⟩) ∧
      (resOk s = false → s ≠ 404 →
        (evolutionLoop env paths last).1 = ⟨false, s, some p, some b, none⟩) ∧
      (s = 404 → post = [] ∧
        (evolutionLoop env paths last).1 = ⟨false, 404, some p, some b, none⟩)
  | [], hne, _, _ => absurd rfl hne
  | c :: rest, _, hhttp, last => by
    obtain ⟨s, b, hc⟩ := hhttp c (List.mem_cons_self c rest)
    by_cases hok : resOk s = true
    · refine ⟨[], c, rest, s, b, rfl, hc, by simp, ?_, ?_, ?_, ?_⟩
      · simp [evolutionLoop, hc, hok]
      · intro _; simp [evolutionLoop, hc, hok]
      · intro hbad; rw [hok] at hbad; simp at hbad
      · intro h404; subst h404; simp [resOk] at hok
    · by_cases h404 : s = 404
      · subst h404
        match rest with
        | [] =>
          refine ⟨[], c, [], 404, b, rfl, hc, by simp, ?_, ?_, ?_, ?_⟩
          · simp [evolutionLoop, hc, hok]
          · intro hbad; rw [hbad] at hok; exact absurd rfl hok
          · intro _ hne'; exact absurd rfl hne'
          · intro _; constructor
            · rfl
            · simp [evolutionLoop, hc, hok, Option.getD]
        | r :: rs =>
          have hrest : (r :: rs : List String) ≠ [] := by simp
          have hhttp' : ∀ q ∈ (r :: rs), ∃ s' b', env q = FetchOutcome.http s' b' :=
            fun q hq => hhttp q (List.mem_cons_of_mem c hq)
          obtain ⟨pre', p', post', s', b', hsplit, hp', hpre', hatt, hok', herr', h404'⟩ :=
            evolutionLoop_http_spec env (r :: rs) hrest hhttp'
              (some ⟨false, 404, some c, some b, none⟩)
          have hloop : evolutionLoop env (c :: r :: rs) last =
              ((evolutionLoop env (r :: rs) (some ⟨false, 404, some c, some b, none⟩)).1,
               c :: (evolutionLoop env (r :: rs) (some ⟨false, 404, some c, some b, none⟩)).2) := by
            simp [evolutionLoop, hc, hok]
          refine ⟨c :: pre', p', post', s', b', by rw [hsplit]; rfl, hp', ?_, ?_, ?_, ?_, ?_⟩
          · intro q hq
            rcases List.mem_cons.mp hq with rfl | hq
            · exact ⟨b, hc⟩
            · exact hpre' q hq
          · rw [hloop]
            simp only [hatt, List.cons_append]
          · intro hs; rw [hloop]; simpa using hok' hs
          · intro hs hne'; rw [hloop]; simpa using herr' hs hne'
          · intro hs
            obtain ⟨hpost, hres⟩ := h404' hs
            exact ⟨hpost, by rw [hloop]; simpa using hres⟩
      · refine ⟨[], c, rest, s, b, rfl, hc, by simp, ?_, ?_, ?_, ?_⟩
        · simp [evolutionLoop, hc, hok, h404]
        · intro hbad; rw [hbad] at hok; exact absurd rfl hok
        · intro _ _; simp [evolutionLoop, hc, hok, h404]
        · intro hbad; exact absurd hbad h404

/-- Helper: when every candidate either 404s or throws a transport error,
the loop attempts every candidate and returns the failure of the last one. -/
theorem evolutionLoop_allfail_spec (env : String → FetchOutcome) :
    ∀ (paths : List String), paths ≠ [] →
    (∀ q ∈ paths, (∃ b, env q = FetchOutcome.http 404 b) ∨ (∃ m, env q = FetchOutcome.netErr m)) →
    ∀ (last : Option EvoResult),
    (evolutionLoop env paths last).2 = paths ∧
    ∃ lastp, paths.getLast? = some lastp ∧
      ((∃ b, env lastp = FetchOutcome.http 404 b ∧
          (evolutionLoop env paths last).1 = ⟨false, 404, some lastp, some b, none⟩) ∨
       (∃ m, env lastp = FetchOutcome.netErr m ∧
          (evolutionLoop env paths last).1 = ⟨false, 0, some lastp, none, some m⟩))
  | [], hne, _, _ => absurd rfl hne
  | c :: rest, _, hfail, last => by
    have hcfail := hfail c (List.mem_cons_self c rest)
    match rest with
    | [] =>
      rcases hcfail with ⟨b, hc⟩ | ⟨m, hc⟩
      · refine ⟨by simp [evolutionLoop, hc, resOk], c, rfl, Or.inl ⟨b, hc, ?_⟩⟩
        simp [evolutionLoop, hc, resOk, Option.getD]
      · refine ⟨by simp [evolutionLoop, hc], c, rfl, Or.inr ⟨m, hc, ?_⟩⟩
        simp [evolutionLoop, hc, Option.getD]
    | r :: rs =>
      have hfail' : ∀ q ∈ (r :: rs),
          (∃ b, env q = FetchOutcome.http 404 b) ∨ (∃ m, env q = FetchOutcome.netErr m) :=
        fun q hq => hfail q (List.mem_cons_of_mem c hq)
      rcases hcfail with ⟨b, hc⟩ | ⟨m, hc⟩
      · obtain ⟨hatt, lastp, hlastp, hres⟩ :=
          evolutionLoop_allfail_spec env (r :: rs) (by simp) hfail'
            (some ⟨false, 404, some c, some b, none⟩)
        have hloop : evolutionLoop env (c :: r :: rs) last =
            ((evolutionLoop env (r :: rs) (some ⟨false, 404, some c, some b, none⟩)).1,
             c :: (evolutionLoop env (r :: rs) (some ⟨false, 404, some c, some b, none⟩)).2) := by
          simp [evolutionLoop, hc, resOk]
        refine ⟨by rw [hloop]; simp [hatt], lastp, ?_, ?_⟩
        · rw [List.getLast?_cons_cons]; exact hlastp
        · rw [hloop]; simpa using hres
      · obtain ⟨hatt, lastp, hlastp, hres⟩ :=
          evolutionLoop_allfail_spec env (r :: rs) (by simp) hfail'
            (some ⟨false, 0, some c, none, some m⟩)
        have hloop : evolutionLoop env (c :: r :: rs) last =
            ((evolutionLoop env (r :: rs) (some ⟨false, 0, some c, none, some m⟩)).1,
             c :: (evolutionLoop env (r :: rs) (some ⟨false, 0, some c, none, some m⟩)).2) := by
          simp [evolutionLoop, hc]
        refine ⟨by rw [hloop]; simp [hatt], lastp, ?_, ?_⟩
        · rw [List.getLast?_cons_cons]; exact hlastp
        · rw [hloop]; simpa using hres

/-- C6: with a non-empty base URL and an environment in which every
candidate path yields an HTTP response, the dispatch tries candidates
strictly in order: every candidate before the stopping one returned 404,
the attempted list is exactly that prefix, a 2xx response stops with a
success reporting that candidate as `path`, any other non-2xx non-404
status stops immediately with that failure (later candidates unattempted),
and if the stopping response is a 404 it is the last candidate's (all
candidates 404ed) and that last 404 is the result. -/
theorem gateway_http_fallback (baseUrl : String) (env : String → FetchOutcome)
    (paths : List String) (hbase : normalizeBaseUrl baseUrl ≠ "") (hne : paths ≠ [])
    (hhttp : ∀ q ∈ paths, ∃ s b, env q = FetchOutcome.http s b) :
    ∃ pre p post s b,
      paths = pre ++ p :: post ∧
      env p = FetchOutcome.http s b ∧
      (∀ q ∈ pre, ∃ b2, env q = FetchOutcome.http 404 b2) ∧
      (evolutionTryRequest baseUrl env paths).2 = pre ++ [p] ∧
      (resOk s = true →
        (evolutionTryRequest baseUrl env paths).1 = ⟨true, s, some p, some b, none⟩) ∧
      (resOk s = false → s ≠ 404 →
        (evolutionTryRequest baseUrl env paths).1 = ⟨false, s, some p, some b, none⟩) ∧
      (s = 404 → post = [] ∧
        (evolutionTryRequest baseUrl env paths).1 = ⟨false, 404, some p, some b, none⟩) := by
  unfold evolutionTryRequest
  rw [if_neg hbase]
  exact evolutionLoop_http_spec env paths hne hhttp none

/-- C6 witness: on candidates [A, B, C] with A, B 404 and C 200, the claim
instantiates; combined with direct evaluation this yields the scenario
result `path = C` with all three candidates attempted in order. -/
theorem gateway_http_fallback_witness :
    (∃ pre p post s b,
      (["A", "B", "C"] : List String) = pre ++ p :: post ∧
      envGatewayABC p = FetchOutcome.http s b ∧
      (∀ q ∈ pre, ∃ b2, envGatewayABC q = FetchOutcome.http 404 b2) ∧
      (evolutionTryRequest "http://gw" envGatewayABC ["A", "B", "C"]).2 = pre ++ [p] ∧
      (resOk s = true →
        (evolutionTryRequest "http://gw" envGatewayABC ["A", "B", "C"]).1 =
          ⟨true, s, some p, some b, none⟩) ∧
      (resOk s = false → s ≠ 404 →
        (evolutionTryRequest "http://gw" envGatewayABC ["A", "B", "C"]).1 =
          ⟨false, s, some p, some b, none⟩) ∧
      (s = 404 → post = [] ∧
        (evolutionTryRequest "http://gw" envGatewayABC ["A", "B", "C"]).1 =
          ⟨false, 404, some p, some b, none⟩)) ∧
    (evolutionTryRequest "http://gw" envGatewayABC ["A", "B", "C"]).1.path = some "C" ∧
    (evolutionTryRequest "http://gw" envGatewayABC ["A", "B", "C"]).2 = ["A", "B", "C"] :=
  ⟨gateway_http_fallback "http://gw" envGatewayABC ["A", "B", "C"] (by decide) (by decide)
    (by
      intro q hq
      fin_cases hq
      · exact ⟨404, "nfA", rfl⟩
      · exact ⟨404, "nfB", rfl⟩
      · exact ⟨200, "ok", rfl⟩),
   by decide, by decide⟩

/-- C7 counterexample: with candidates [A, B] where A fails with a
transport error, the dispatch does *not* return A's transport failure —
it proceeds to B, attempts it, and returns B's success. -/
theorem gateway_transport_counterexample :
    evolutionTryRequest "http://gw" envGatewayNet ["A", "B"] =
      (⟨true, 200, some "B", some "ok", none⟩, ["A", "B"]) ∧
    (evolutionTryRequest "http://gw" envGatewayNet ["A", "B"]).1 ≠
      ⟨false, 0, some "A", none, some "boom"⟩ := by
  decide

/-- C7 (amended): a transport error while attempting a candidate does not
abort the dispatch — it is recorded as the latest failure and the
remaining candidates are still attempted; when every candidate fails (404
or transport error), all candidates are attempted in order and the result
is the failure of the last candidate. -/
theorem gateway_transport_continues (baseUrl : String) (env : String → FetchOutcome)
    (paths : List String) (hbase : normalizeBaseUrl baseUrl ≠ "") (hne : paths ≠ [])
    (hfail : ∀ q ∈ paths,
      (∃ b, env q = FetchOutcome.http 404 b) ∨ (∃ m, env q = FetchOutcome.netErr m)) :
    (evolutionTryRequest baseUrl env paths).2 = paths ∧
    ∃ lastp, paths.getLast? = some lastp ∧
      ((∃ b, env lastp = FetchOutcome.http 404 b ∧
          (evolutionTryRequest baseUrl env paths).1 = ⟨false, 404, some lastp, some b, none⟩) ∨
       (∃ m, env lastp = FetchOutcome.netErr m ∧
          (evolutionTryRequest baseUrl env paths).1 = ⟨false, 0, some lastp, none, some m⟩)) := by
  unfold evolutionTryRequest
  rw [if_neg hbase]
  exact evolutionLoop_allfail_spec env paths hne hfail none

/-- C7 (amended) witness: with A a transport error and B a 404, both
candidates are attempted and the result is B's 404. -/
theorem gateway_transport_continues_witness :
    (evolutionTryRequest "http://gw" envGatewayNet404 ["A", "B"]).2 = ["A", "B"] ∧
    ∃ lastp, (["A", "B"] : List String).getLast? = some lastp ∧
      ((∃ b, envGatewayNet404 lastp = FetchOutcome.http 404 b ∧
          (evolutionTryRequest "http://gw" envGatewayNet404 ["A", "B"]).1 =
            ⟨false, 404, some lastp, some b, none⟩) ∨
       (∃ m, envGatewayNet404 lastp = FetchOutcome.netErr m ∧
          (evolutionTryRequest "http://gw" envGatewayNet404 ["A", "B"]).1 =
            ⟨false, 0, some lastp, none, some m⟩)) :=
  gateway_transport_continues "http://gw" envGatewayNet404 ["A", "B"] (by decide) (by decide)
    (by
      intro q hq
      fin_cases hq
      · exact Or.inr ⟨"boom", rfl⟩
      · exact Or.inl ⟨"nf", rfl⟩)

/-- Helper: the session flag after a turn is the old flag OR-ed with this
turn's firing outcome (the one-way latch shape). -/
theorem runAgentStep_flag (env : WorkflowEnv) (turn : AgentTurn) :
    (runAgentStep env turn).session.automationsTriggered =
      (env.session.automationsTriggered || (runAgentStep env turn).triggeredAutomations) := rfl

/-- Helper: a turn fires iff its automation task list is non-empty. -/
theorem runAgentStep_triggered (env : WorkflowEnv) (turn : AgentTurn) :
    (runAgentStep env turn).triggeredAutomations =
      !(runAgentStep env turn).automationTasks.isEmpty := rfl

/-- Helper: the automation tasks of a turn are the automation block applied
to the turn's creation outcome, stored lead id, and the session flag. -/
theorem runAgentStep_tasks_eq (env : WorkflowEnv) (turn : AgentTurn) :
    ∃ nm, (runAgentStep env turn).automationTasks =
      agentAutomationBlock env.automations env.settings env.session.automationsTriggered
        (runAgentStep env turn).createdLead (runAgentStep env turn).session.leadId
        turn.autoTaskId nm := ⟨_, rfl⟩

/-- Helper: a non-empty automation block implies the lead was created this
turn and the session flag was false, and each produced task comes from one
step of an active `new_lead` automation definition. -/
theorem agentAutomationBlock_spec (autos : List Automation) (settings : AgentSettings)
    (flag created : Bool) (lid : String) (ids : Nat → Nat → String) (nm : String)
    (h : agentAutomationBlock autos settings flag created lid ids nm ≠ []) :
    created = true ∧ flag = false ∧
    ∀ t ∈ agentAutomationBlock autos settings flag created lid ids nm,
      ∃ a, a ∈ autos ∧ a.active = true ∧ a.trigger = "new_lead" ∧
        ∃ i step, step ∈ a.steps ∧ t = agentAutomationTask a i step t.id t.related := by
  simp only [agentAutomationBlock] at h ⊢
  by_cases hfire :
      (created && decide (lid ≠ "") && !(if settings.triggerMarketingAutomations then
        autos.filter (fun a => a.active && a.trigger = "new_lead") else []).isEmpty &&
        !flag) = true
  case neg =>
    rw [if_neg hfire] at h
    exact absurd rfl h
  case pos =>
    have hparts := hfire
    simp only [Bool.and_eq_true, Bool.not_eq_true'] at hparts
    refine ⟨hparts.1.1.1, hparts.2, ?_⟩
    intro t ht
    rw [if_pos hfire] at ht
    rw [List.mem_flatten] at ht
    obtain ⟨inner, hinner, htin⟩ := ht
    rw [List.mem_map] at hinner
    obtain ⟨ai, hai, rfl⟩ := hinner
    rw [List.mem_map] at htin
    obtain ⟨si, hsi, rfl⟩ := htin
    have hamem : ai.2 ∈ (if settings.triggerMarketingAutomations then
        autos.filter (fun a => a.active && a.trigger = "new_lead") else []) := by
      have := List.mem_enum_iff_getElem?.mp (by exact hai)
      exact List.getElem?_mem this
    have hsmem : si.2 ∈ ai.2.steps := by
      have := List.mem_enum_iff_getElem?.mp (by exact hsi)
      exact List.getElem?_mem this
    rcases hset : settings.triggerMarketingAutomations with _ | _
    · rw [hset] at hamem
      simp at hamem
    · rw [hset] at hamem
      rw [if_pos rfl] at hamem
      rw [List.mem_filter] at hamem
      obtain ⟨haut, hact⟩ := hamem
      simp only [Bool.and_eq_true, decide_eq_true_eq] at hact
      exact ⟨ai.2, haut, hact.1, hact.2, si.1, si.2, hsmem, rfl⟩

/-- Helper: a turn whose session flag is already true never fires. -/
theorem runAgentStep_no_refire (env : WorkflowEnv) (turn : AgentTurn)
    (h : env.session.automationsTriggered = true) :
    (runAgentStep env turn).triggeredAutomations = false := by
  rcases hT : (runAgentStep env turn).automationTasks with _ | ⟨t, ts⟩
  · rw [runAgentStep_triggered, hT]
    rfl
  · obtain ⟨nm, heq⟩ := runAgentStep_tasks_eq env turn
    have hne : agentAutomationBlock env.automations env.settings
        env.session.automationsTriggered (runAgentStep env turn).createdLead
        (runAgentStep env turn).session.leadId turn.autoTaskId nm ≠ [] := by
      rw [← heq, hT]
      simp
    have := (agentAutomationBlock_spec _ _ _ _ _ _ _ hne).2.1
    rw [h] at this
    exact absurd this (by simp)

/-- Helper: once the session flag is true, no later turn of the
conversation ever fires. -/
theorem agentFireList_flag_true (turns : List AgentTurn) :
    ∀ env : WorkflowEnv, env.session.automationsTriggered = true →
      (agentFireList env turns).count true = 0 := by
  induction turns with
  | nil => intro env _; rfl
  | cons turn rest ih =>
    intro env h
    have hfire := runAgentStep_no_refire env turn h
    have hafter : (envAfter env turn).session.automationsTriggered = true := by
      show (env.session.automationsTriggered || (runAgentStep env turn).triggeredAutomations) = true
      rw [h]
      rfl
    simp only [agentFireList, List.count_cons, hfire, ih (envAfter env turn) hafter]
    rfl

/-- Helper: across any conversation, at most one turn fires automations. -/
theorem agentFireList_count_le_one (turns : List AgentTurn) :
    ∀ env : WorkflowEnv, (agentFireList env turns).count true ≤ 1 := by
  induction turns with
  | nil => intro env; simp [agentFireList]
  | cons t rest ih =>
    intro env
    rcases hfire : (runAgentStep env t).triggeredAutomations with _ | _
    · have hstep : (agentFireList env (t :: rest)).count true =
          (agentFireList (envAfter env t) rest).count true := by
        simp [agentFireList, List.count_cons, hfire]
      rw [hstep]
      exact ih (envAfter env t)
    · have hafter : (envAfter env t).session.automationsTriggered = true := by
        show (env.session.automationsTriggered ||
          (runAgentStep env t).triggeredAutomations) = true
        rw [hfire]
        simp
      have hrest := agentFireList_flag_true rest (envAfter env t) hafter
      simp [agentFireList, List.count_cons, hfire, hrest]

/-- C2: for every session, the automation flag is a one-way latch — the
flag after a turn is the old flag OR-ed with this turn's firing, so a true
flag stays true — a turn produces automation tasks only when it created the
lead, only when the flag was false beforehand (in which case it fires and
the flag is set), every produced task comes from one step of an active
automation definition with trigger `new_lead`, and across any sequence of
turns at most one turn fires (none once the flag is true). -/
theorem automation_latch (env : WorkflowEnv) (turn : AgentTurn) :
    ((runAgentStep env turn).session.automationsTriggered =
      (env.session.automationsTriggered || (runAgentStep env turn).triggeredAutomations)) ∧
    (env.session.automationsTriggered = true →
      (runAgentStep env turn).session.automationsTriggered = true) ∧
    ((runAgentStep env turn).automationTasks ≠ [] →
      (runAgentStep env turn).createdLead = true ∧
      env.session.automationsTriggered = false ∧
      (runAgentStep env turn).triggeredAutomations = true) ∧
    (∀ t ∈ (runAgentStep env turn).automationTasks,
      ∃ a, a ∈ env.automations ∧ a.active = true ∧ a.trigger = "new_lead" ∧
        ∃ i step, step ∈ a.steps ∧ t = agentAutomationTask a i step t.id t.related) ∧
    (∀ turns : List AgentTurn,
      (env.session.automationsTriggered = true → (agentFireList env turns).count true = 0) ∧
      (agentFireList env turns).count true ≤ 1) := by
  obtain ⟨nm, heq⟩ := runAgentStep_tasks_eq env turn
  refine ⟨runAgentStep_flag env turn, ?_, ?_, ?_, ?_⟩
  · intro h
    rw [runAgentStep_flag, h]
    rfl
  · intro hne
    rw [heq] at hne
    obtain ⟨hcreated, hflag, _⟩ := agentAutomationBlock_spec _ _ _ _ _ _ _ hne
    refine ⟨hcreated, hflag, ?_⟩
    rw [runAgentStep_triggered]
    rcases hT : (runAgentStep env turn).automationTasks with _ | ⟨t, ts⟩
    · rw [hT] at heq
      exact absurd heq.symm hne
    · rfl
  · intro t ht
    rw [heq] at ht
    have hne : agentAutomationBlock env.automations env.settings
        env.session.automationsTriggered (runAgentStep env turn).createdLead
        (runAgentStep env turn).session.leadId turn.autoTaskId nm ≠ [] := by
      intro hnil
      rw [hnil] at ht
      exact absurd ht (List.not_mem_nil t)
    exact (agentAutomationBlock_spec _ _ _ _ _ _ _ hne).2.2 t ht
  · intro turns
    constructor
    · exact agentFireList_flag_true turns env
    · exact agentFireList_count_le_one turns env

/-- C2 witness: on a fresh session with one active `new_lead` automation,
the first turn creates the lead from a false flag and fires, and across a
two-turn conversation automations fire at most once. -/
theorem automation_latch_witness :
    ((runAgentStep demoEnvC2 demoTurn).createdLead = true ∧
     demoEnvC2.session.automationsTriggered = false ∧
     (runAgentStep demoEnvC2 demoTurn).triggeredAutomations = true) ∧
    (agentFireList demoEnvC2 [demoTurn, demoTurn]).count true ≤ 1 :=
  ⟨(automation_latch demoEnvC2 demoTurn).2.2.1 (by decide),
   ((automation_latch demoEnvC2 demoTurn).2.2.2.2 [demoTurn, demoTurn]).2⟩

/-- Helper: the email block leaves a truthy id alone and otherwise returns
the first email match's id (or `""`). -/
theorem resolveByEmail_cases (leads : List Lead) (sid : String) (nd : Draft) :
    (sid ≠ "" → resolveByEmail leads sid nd = sid) ∧
    (factTruthy (nd "email") = false → resolveByEmail leads sid nd = sid) ∧
    (sid = "" → factTruthy (nd "email") = true →
      resolveByEmail leads sid nd =
        match leads.find? (leadEmailMatches (optFactStr (nd "email"))) with
        | some l => l.id
        | none => "") := by
  refine ⟨?_, ?_, ?_⟩
  · intro h
    unfold resolveByEmail
    rw [if_neg]
    simp [h]
  · intro h
    unfold resolveByEmail
    rw [if_neg]
    simp [h]
  · intro hsid he
    subst hsid
    unfold resolveByEmail
    rw [if_pos (by simp [he])]

/-- Helper: the phone block leaves a truthy id alone and otherwise returns
the first phone match's id (or `""`). -/
theorem resolveByPhone_cases (leads : List Lead) (lid : String) (nd : Draft) :
    (lid ≠ "" → resolveByPhone leads lid nd = lid) ∧
    (factTruthy (nd "phone") = false → resolveByPhone leads lid nd = lid) ∧
    (lid = "" → factTruthy (nd "phone") = true →
      resolveByPhone leads lid nd =
        match leads.find? (leadPhoneMatches (digitsOnly (optFactStr (nd "phone")))) with
        | some l => l.id
        | none => "") := by
  refine ⟨?_, ?_, ?_⟩
  · intro h
    unfold resolveByPhone
    rw [if_neg]
    simp [h]
  · intro h
    unfold resolveByPhone
    rw [if_neg]
    simp [h]
  · intro hlid hp
    subst hlid
    unfold resolveByPhone
    rw [if_pos (by simp [hp])]

/-- Helper: with a non-empty digits form, the source's phone matcher is the
claim's digits-only equality matcher. -/
theorem leadPhoneMatches_eq (d : String) (hd : d ≠ "") :
    leadPhoneMatches d = (fun l : Lead => decide (digitsOnly l.phone = d)) := by
  funext l
  unfold leadPhoneMatches
  by_cases hcase : digitsOnly l.phone = d
  · simp [hcase, hd]
  · simp [hcase]

/-- Helper: with non-empty stored lead ids and a non-degenerate draft phone
(its digit form is non-empty whenever the phone is truthy), the source's
resolver chain agrees with the claim's resolver. -/
theorem agentResolveLeadId_spec (leads : List Lead) (sid : String) (nd : Draft)
    (hids : ∀ l ∈ leads, l.id ≠ "")
    (hphone : factTruthy (nd "phone") = true → digitsOnly (optFactStr (nd "phone")) ≠ "") :
    agentResolveLeadId leads sid nd =
      (specResolve leads sid (draftEmailArg nd) (draftPhoneArg nd)).getD "" ∧
    ∀ i, specResolve leads sid (draftEmailArg nd) (draftPhoneArg nd) = some i → i ≠ "" := by
  have hspecEmail : specFirstEmailMatch leads (optFactStr (nd "email")) =
      leads.find? (leadEmailMatches (optFactStr (nd "email"))) := rfl
  unfold agentResolveLeadId
  by_cases hsid : sid = ""
  case neg =>
    have h1 := (resolveByEmail_cases leads sid nd).1 hsid
    have h2 := (resolveByPhone_cases leads sid nd).1 hsid
    rw [h1, h2]
    unfold specResolve
    rw [if_pos hsid]
    exact ⟨rfl, fun i hi => by rw [Option.some.injEq] at hi; rw [← hi]; exact hsid⟩
  case pos =>
    subst hsid
    unfold specResolve
    rw [if_neg (by simp)]
    -- the phone tail, shared by the email-absent and email-no-match paths
    have hphoneTail :
        (resolveByPhone leads "" nd =
          (match (draftPhoneArg nd).bind (fun p => specFirstPhoneMatch leads p) with
            | some l => some l.id
            | none => none).getD "") ∧
        ∀ i, (match (draftPhoneArg nd).bind (fun p => specFirstPhoneMatch leads p) with
            | some l => some l.id
            | none => (none : Option String)) = some i → i ≠ "" := by
      cases hp : factTruthy (nd "phone") with
      | false =>
        have h2 := (resolveByPhone_cases leads "" nd).2.1 hp
        rw [h2]
        simp [draftPhoneArg, hp]
      | true =>
        have hd := hphone hp
        have h2 := (resolveByPhone_cases leads "" nd).2.2 rfl hp
        have hspecPhone : specFirstPhoneMatch leads (digitsOnly (optFactStr (nd "phone"))) =
            leads.find? (leadPhoneMatches (digitsOnly (optFactStr (nd "phone")))) := by
          unfold specFirstPhoneMatch
          rw [leadPhoneMatches_eq _ hd]
        simp only [draftPhoneArg, hp, if_true, Option.some_bind, hspecPhone]
        rw [h2]
        cases hf2 : leads.find? (leadPhoneMatches (digitsOnly (optFactStr (nd "phone")))) with
        | none => simp
        | some l =>
          have hlid := hids l (List.mem_of_find?_eq_some hf2)
          exact ⟨rfl, fun i hi => by rw [Option.some.injEq] at hi; rw [← hi]; exact hlid⟩
    cases he : factTruthy (nd "email") with
    | false =>
      have h1 := (resolveByEmail_cases leads "" nd).2.1 he
      rw [h1]
      simp only [draftEmailArg, he, if_false, Option.none_bind]
      exact hphoneTail
    | true =>
      have h1 := (resolveByEmail_cases leads "" nd).2.2 rfl he
      simp only [draftEmailArg, he, if_true, Option.some_bind, hspecEmail]
      cases hf : leads.find? (leadEmailMatches (optFactStr (nd "email"))) with
      | some l =>
        have hlid := hids l (List.mem_of_find?_eq_some hf)
        rw [hf] at h1
        have h2 := (resolveByPhone_cases leads (resolveByEmail leads "" nd) nd).1
          (by rw [h1]; exact hlid)
        rw [h1] at h2
        rw [h1, h2]
        exact ⟨rfl, fun i hi => by rw [Option.some.injEq] at hi; rw [← hi]; exact hlid⟩
      | none =>
        rw [hf] at h1
        rw [h1]
        exact hphoneTail

/-- Helper: the resolution-related projections of a workflow run, connected
to the named resolver and store-update functions. -/
theorem runAgentStep_resolution (env : WorkflowEnv) (turn : AgentTurn) :
    (runAgentStep env turn).createdLead =
      (decide (agentResolveLeadId env.leads env.session.leadId
        (agentMergeDraft env.session.draft turn.signals) = "") && env.settings.autoCreateLead) ∧
    (runAgentStep env turn).session.leadId =
      (if (runAgentStep env turn).createdLead then turn.freshLeadId
       else agentResolveLeadId env.leads env.session.leadId
         (agentMergeDraft env.session.draft turn.signals)) ∧
    ∃ payload : Lead,
      payload.score = agentComputeLeadScore (agentMergeDraft env.session.draft turn.signals) ∧
      (runAgentStep env turn).leads =
        agentUpdateLeadStore (runAgentStep env turn).createdLead
          (runAgentStep env turn).session.leadId payload env.leads :=
  ⟨rfl, rfl, _, rfl, rfl⟩

/-- Helper: every lead in the updated store is an untouched old lead or
carries the payload's score. -/
theorem agentUpdateLeadStore_mem (created : Bool) (lid : String) (payload : Lead)
    (leads : List Lead) :
    ∀ l ∈ agentUpdateLeadStore created lid payload leads,
      l ∈ leads ∨ l.score = payload.score := by
  intro l hl
  unfold agentUpdateLeadStore at hl
  split at hl
  · rcases List.mem_cons.mp hl with rfl | h
    · right; rfl
    · left; exact h
  · split at hl
    · rw [List.mem_map] at hl
      obtain ⟨x, hx, rfl⟩ := hl
      by_cases hxid : x.id = lid
      · right; simp [hxid]
      · left; simpa [hxid] using hx
    · left; exact hl

/-- Helper: the non-creating store update preserves the number of leads. -/
theorem agentUpdateLeadStore_length (lid : String) (payload : Lead) (leads : List Lead) :
    (agentUpdateLeadStore false lid payload leads).length = leads.length := by
  unfold agentUpdateLeadStore
  rw [if_neg (by simp)]
  split
  · rw [List.length_map]
  · rfl

/-- Helper: the creating store update prepends the payload under the new id. -/
theorem agentUpdateLeadStore_created (lid : String) (payload : Lead) (leads : List Lead) :
    agentUpdateLeadStore true lid payload leads = { payload with id := lid } :: leads := by
  unfold agentUpdateLeadStore
  rw [if_pos rfl]

/-- C9: with lead creation enabled, non-empty stored lead ids, a non-empty
fresh id and a draft phone whose digit form is non-empty when present, the
session `leadId` stored by a turn is the claim's resolver result — the
session's own `leadId` first, else the first case-insensitive email match,
else the first digits-only phone match, else the freshly created lead's id;
a lead is created exactly when the resolver found nothing, creation
prepends one new lead carrying the fresh id, and a resolved id updates in
place without changing the number of leads. -/
theorem dedup_resolver (env : WorkflowEnv) (turn : AgentTurn)
    (hauto : env.settings.autoCreateLead = true)
    (hids : ∀ l ∈ env.leads, l.id ≠ "")
    (hphone : factTruthy ((agentMergeDraft env.session.draft turn.signals) "phone") = true →
      digitsOnly (optFactStr ((agentMergeDraft env.session.draft turn.signals) "phone")) ≠ "") :
    (runAgentStep env turn).session.leadId =
      (specResolve env.leads env.session.leadId
        (draftEmailArg (agentMergeDraft env.session.draft turn.signals))
        (draftPhoneArg (agentMergeDraft env.session.draft turn.signals))).getD turn.freshLeadId ∧
    ((runAgentStep env turn).createdLead = true ↔
      specResolve env.leads env.session.leadId
        (draftEmailArg (agentMergeDraft env.session.draft turn.signals))
        (draftPhoneArg (agentMergeDraft env.session.draft turn.signals)) = none) ∧
    (specResolve env.leads env.session.leadId
        (draftEmailArg (agentMergeDraft env.session.draft turn.signals))
        (draftPhoneArg (agentMergeDraft env.session.draft turn.signals)) = none →
      ∃ newLead, (runAgentStep env turn).leads = newLead :: env.leads ∧
        newLead.id = turn.freshLeadId) ∧
    (∀ i, specResolve env.leads env.session.leadId
        (draftEmailArg (agentMergeDraft env.session.draft turn.signals))
        (draftPhoneArg (agentMergeDraft env.session.draft turn.signals)) = some i →
      (runAgentStep env turn).session.leadId = i ∧
      (runAgentStep env turn).createdLead = false ∧
      (runAgentStep env turn).leads.length = env.leads.length) := by
  obtain ⟨hres, hsome⟩ := agentResolveLeadId_spec env.leads env.session.leadId
    (agentMergeDraft env.session.draft turn.signals) hids hphone
  obtain ⟨hcreated, hlid, payload, hscore, hleads⟩ := runAgentStep_resolution env turn
  cases hr : specResolve env.leads env.session.leadId
      (draftEmailArg (agentMergeDraft env.session.draft turn.signals))
      (draftPhoneArg (agentMergeDraft env.session.draft turn.signals)) with
  | none =>
    have hR : agentResolveLeadId env.leads env.session.leadId
        (agentMergeDraft env.session.draft turn.signals) = "" := by
      rw [hres, hr]; rfl
    have hc : (runAgentStep env turn).createdLead = true := by
      rw [hcreated, hR, hauto]; simp
    have hlid3 : (runAgentStep env turn).session.leadId = turn.freshLeadId := by
      rw [hlid, hc]; simp
    refine ⟨by rw [hlid3]; rfl, by simp [hc], ?_, ?_⟩
    · intro _
      refine ⟨{ payload with id := turn.freshLeadId }, ?_, rfl⟩
      rw [hleads, hc, hlid3, agentUpdateLeadStore_created]
    · intro i hi
      exact Option.noConfusion hi
  | some i =>
    have hine := hsome i hr
    have hR : agentResolveLeadId env.leads env.session.leadId
        (agentMergeDraft env.session.draft turn.signals) = i := by
      rw [hres, hr]; rfl
    have hc : (runAgentStep env turn).createdLead = false := by
      rw [hcreated, hR]
      simp [hine]
    have hlid3 : (runAgentStep env turn).session.leadId = i := by
      rw [hlid, hc, hR]; simp
    refine ⟨by rw [hlid3]; rfl, by simp [hc], by intro h; exact Option.noConfusion h, ?_⟩
    intro j hj
    rw [Option.some.injEq] at hj
    subst hj
    refine ⟨hlid3, hc, ?_⟩
    rw [hleads, hc, agentUpdateLeadStore_length]

/-- C9 witness: the case-insensitive email match resolves the session to
the stored lead, creates nothing, and updates in place. -/
theorem dedup_resolver_witness :
    (runAgentStep demoEnvC9 demoTurnC9).session.leadId = "L1" ∧
    (runAgentStep demoEnvC9 demoTurnC9).createdLead = false ∧
    (runAgentStep demoEnvC9 demoTurnC9).leads.length = demoEnvC9.leads.length := by
  have h := dedup_resolver demoEnvC9 demoTurnC9 rfl (by decide) (by decide)
  have hspec : specResolve demoEnvC9.leads demoEnvC9.session.leadId
      (draftEmailArg (agentMergeDraft demoEnvC9.session.draft demoTurnC9.signals))
      (draftPhoneArg (agentMergeDraft demoEnvC9.session.draft demoTurnC9.signals)) =
        some "L1" := by decide
  exact h.2.2.2 "L1" hspec

/-- C10: the computed lead score is an integer in [25, 100] for every
draft — it never falls below the base 25 — and every lead record the
workflow writes (created or updated, i.e. any lead of the resulting store
that is not an untouched member of the old store) satisfies the
`crm_leads_score_range` check constraint `0 ≤ score ≤ 100`. -/
theorem lead_score_floor :
    (∀ draft : Draft, 25 ≤ agentComputeLeadScore draft ∧ agentComputeLeadScore draft ≤ 100) ∧
    (∀ (env : WorkflowEnv) (turn : AgentTurn),
      ∀ l ∈ (runAgentStep env turn).leads,
        l ∈ env.leads ∨ (25 ≤ l.score ∧ crm_leads_score_range l.score)) := by
  refine ⟨agentComputeLeadScore_bounds, ?_⟩
  intro env turn l hl
  obtain ⟨hcreated, hlid, payload, hscore, hleads⟩ := runAgentStep_resolution env turn
  rw [hleads] at hl
  rcases agentUpdateLeadStore_mem _ _ _ _ l hl with h | h
  · left; exact h
  · right
    rw [h, hscore]
    have hb := agentComputeLeadScore_bounds (agentMergeDraft env.session.draft turn.signals)
    exact ⟨hb.1, by constructor <;> [linarith [hb.1]; exact hb.2]⟩

/-- C10 witness: the concrete lead created from an empty draft carries
score 25, inside the check constraint's range. -/
theorem lead_score_floor_witness :
    25 ≤ demoCreatedLead.score ∧ crm_leads_score_range demoCreatedLead.score := by
  have h := lead_score_floor.2 demoEnvC2 demoTurn demoCreatedLead (by decide)
  rcases h with h | h
  · exact absurd h (by decide)
  · exact h
